import Mathlib

/-!
Shallow embedding of the Monipay tempo worker (src/p2p.js, src/blockchain.js,
src/database.js, src/index.js).  Pure text processing is modelled by
recursive functions on lists of characters; external collaborators
(datastore, social read, chain writes) are modelled as explicit
environments; JS numbers arising from decimal text are modelled exactly as
scaled naturals (mantissa over a power of ten), avoiding floating point.
-/

namespace TempoWorker

instance {ε α : Type} [DecidableEq ε] [DecidableEq α] : DecidableEq (Except ε α) :=
  fun a b =>
    match a, b with
    | Except.ok x, Except.ok y =>
      if h : x = y then isTrue (by rw [h]) else isFalse (by simp [h])
    | Except.error x, Except.error y =>
      if h : x = y then isTrue (by rw [h]) else isFalse (by simp [h])
    | Except.ok _, Except.error _ => isFalse (by simp)
    | Except.error _, Except.ok _ => isFalse (by simp)

/-! Exact decimal numbers: value is m divided by ten to the e. -/

structure Dec where
  m : ℕ
  e : ℕ
deriving DecidableEq, Repr

namespace Dec

def ofNat (n : ℕ) : Dec := ⟨n, 0⟩

instance (n : ℕ) : OfNat Dec n := ⟨ofNat n⟩

/-- Value comparison by cross multiplication. -/
protected def le (a b : Dec) : Prop := a.m * 10 ^ b.e ≤ b.m * 10 ^ a.e

protected def lt (a b : Dec) : Prop := a.m * 10 ^ b.e < b.m * 10 ^ a.e

instance : LE Dec := ⟨Dec.le⟩

instance : LT Dec := ⟨Dec.lt⟩

instance (a b : Dec) : Decidable (a ≤ b) :=
  inferInstanceAs (Decidable (a.m * 10 ^ b.e ≤ b.m * 10 ^ a.e))

instance (a b : Dec) : Decidable (a < b) :=
  inferInstanceAs (Decidable (a.m * 10 ^ b.e < b.m * 10 ^ a.e))

/-- Multiplication by a natural (JS number times an array length). -/
def mulNat (a : Dec) (k : ℕ) : Dec := ⟨a.m * k, a.e⟩

/-- Rational value of a decimal, for value-level statements. -/
def val (a : Dec) : ℚ := (a.m : ℚ) / 10 ^ a.e

end Dec

/-! Character and string utilities mirroring the JS operations used. -/

/-- JS String.prototype.toLowerCase restricted to ASCII letters. -/
def jsLower (c : Char) : Char :=
  if 'A' ≤ c ∧ c ≤ 'Z' then Char.ofNat (c.toNat + 32) else c

def lowerChars (s : List Char) : List Char := s.map jsLower

/-- JS String.prototype.includes: substring containment. -/
def containsSub (needle : List Char) : List Char → Bool
  | [] => needle.isEmpty
  | c :: rest => needle.isPrefixOf (c :: rest) || containsSub needle rest

/-- Maximal run of decimal digits at the head (regex greedy plus); returns (run, rest). -/
def scanDigits : List Char → List Char × List Char
  | [] => ([], [])
  | c :: rest =>
    if c.isDigit then ((c :: (scanDigits rest).1), (scanDigits rest).2)
    else ([], c :: rest)

/-- First match of the amount pattern: a dollar sign, one or more digits,
optionally a dot followed by one or more digits.  Mirrors matching the
amount regex against the lowercased text in parseP2PCommand
(src/p2p.js line 43).  Returns (integer digits, fraction digits). -/
def findAmount : List Char → Option (List Char × List Char)
  | [] => none
  | c :: rest =>
    if c = '$' then
      match rest with
      | [] => none
      | d :: _ =>
        if d.isDigit then
          let ip := (scanDigits rest).1
          match (scanDigits rest).2 with
          | '.' :: r2 =>
            match r2 with
            | [] => some (ip, [])
            | e :: _ => if e.isDigit then some (ip, (scanDigits r2).1) else some (ip, [])
          | _ => some (ip, [])
        else findAmount rest
    else findAmount rest

/-- Characters of the handle-mention character class: letters, digits,
underscore and hyphen. -/
def isHandleChar (c : Char) : Bool :=
  c.isAlpha || c.isDigit || c = '_' || c = '-'

/-- State machine for global matching of the mention pattern: the first
argument holds the reversed partial handle while a match attempt is open. -/
def scanMentionsAux : Option (List Char) → List Char → List (List Char)
  | none, [] => []
  | some acc, [] => if acc.isEmpty then [] else [acc.reverse]
  | none, c :: rest =>
    if c = '@' then scanMentionsAux (some []) rest else scanMentionsAux none rest
  | some acc, c :: rest =>
    if isHandleChar c then scanMentionsAux (some (c :: acc)) rest
    else if acc.isEmpty then
      if c = '@' then scanMentionsAux (some []) rest else scanMentionsAux none rest
    else
      acc.reverse ::
        (if c = '@' then scanMentionsAux (some []) rest else scanMentionsAux none rest)

/-- All matches of the mention pattern (an at sign followed by one or more
handle characters), global, non-overlapping, mirroring the mention regex
applied to the original text in src/p2p.js line 50. -/
def scanMentions (text : List Char) : List (List Char) :=
  scanMentionsAux none text

/-- Numeric value of a digit string. -/
def natOfDigits (ds : List Char) : ℕ :=
  ds.foldl (fun a c => a * 10 + (c.toNat - 48)) 0

/-- Exact decimal value of integer digits plus fraction digits
(model of parseFloat applied to the matched amount token). -/
def decValue (ip fr : List Char) : Dec :=
  ⟨natOfDigits ip * 10 ^ fr.length + natOfDigits fr, fr.length⟩

/-- Mention tags after lowercasing and excluding the reserved bot handles
(src/p2p.js lines 50-53). -/
def mentionTags (text : List Char) : List String :=
  ((scanMentions text).map (fun m => String.mk (lowerChars m))).filter
    (fun s => s != "monibot" && s != "monipay")

/-- A parsed transfer intent (src/p2p.js line 60). -/
structure Intent where
  amount : Dec
  recipients : List String
  isEach : Bool
deriving DecidableEq, Repr

/-- parseP2PCommand (src/p2p.js lines 39-61): extract a dollar amount from the
lowercased text, reject non-positive or over-10000 amounts, collect mentions
from the original text minus the bot handles, and detect the word each. -/
def parseP2PCommand (text : String) : Option Intent :=
  let lower := lowerChars text.data
  match findAmount lower with
  | none => none
  | some (ip, fr) =>
    let amount := decValue ip fr
    if amount ≤ 0 ∨ 10000 < amount then none
    else
      let recipients := mentionTags text.data
      if recipients = [] then none
      else some ⟨amount, recipients, containsSub "each".data lower⟩

example : parseP2PCommand "@monibot send $5 to @alice on tempo" =
    some ⟨⟨5, 0⟩, ["alice"], false⟩ := by decide

example : parseP2PCommand "hello world" = none := by decide

example : parseP2PCommand "@monibot send $0 to @a" = none := by decide

example : parseP2PCommand "@monibot send $999999 to @a" = none := by decide

example : parseP2PCommand "@monibot send $1 each to @alice, @bob on tempo" =
    some ⟨⟨1, 0⟩, ["alice", "bob"], true⟩ := by decide

example : parseP2PCommand "@monibot pay @bob $10.50 on tempo" =
    some ⟨⟨1050, 2⟩, ["bob"], false⟩ := by decide

/-! Blockchain module model (src/blockchain.js). -/

def FEE_BPS : ℕ := 130

/-- Fee in smallest units: amountWei times the basis points over ten
thousand, BigInt floor division (src/blockchain.js lines 135 and 153). -/
def feeOfWei (w : ℕ) : ℕ := w * FEE_BPS / 10000

/-- Net amount in smallest units (src/blockchain.js lines 136 and 154). -/
def netOfWei (w : ℕ) : ℕ := w - feeOfWei w

/-- parseUnits at six decimals applied to a decimal number (the source passes
the printed JS number to parseUnits; inputs of at most six fraction digits
scale exactly). -/
def weiOf (a : Dec) : ℕ := a.m * 10 ^ 6 / 10 ^ a.e

def trimTrailingZeros (s : List Char) : List Char :=
  (s.reverse.dropWhile (fun c => c == '0')).reverse

def padSixDigits (n : ℕ) : List Char :=
  let ds := (Nat.repr n).data
  List.replicate (6 - ds.length) '0' ++ ds

/-- formatUnits at six decimals: integer part, then the six-digit fraction
with trailing zeros trimmed, omitted when zero. -/
def formatUnits6 (w : ℕ) : String :=
  let ip := w / 10 ^ 6
  let fp := w % 10 ^ 6
  if fp = 0 then Nat.repr ip
  else Nat.repr ip ++ "." ++ String.mk (trimTrailingZeros (padSixDigits fp))

example : formatUnits6 130000 = "0.13" := by decide

example : formatUnits6 9870000 = "9.87" := by decide

/-- Result shape of the two transfer primitives, in smallest units. -/
structure TransferOut where
  txHash : String
  amountWei : ℕ
  feeWei : ℕ
  netWei : ℕ
deriving DecidableEq, Repr

/-- Chain interaction state for executeGrant: the outcome of the routed write
submission, and the outcome of waiting for its receipt within the sixty
second timeout (an error is a timeout or other wait failure). -/
structure GrantEnv where
  submitWrite : Except String String
  receiptWait : Except String ℕ

/-- executeGrant (src/blockchain.js lines 120-146): submit the routed write,
wait for the transaction receipt bounded by sixty seconds, then compute the
fee split and return; a submission or wait failure propagates as a thrown
error. -/
def executeGrant (env : GrantEnv) (amount : Dec) : Except String (TransferOut × ℕ) :=
  let w := weiOf amount
  match env.submitWrite with
  | Except.error e => Except.error e
  | Except.ok h =>
    match env.receiptWait with
    | Except.error e => Except.error e
    | Except.ok bn => Except.ok (⟨h, w, feeOfWei w, netOfWei w⟩, bn)

/-- Chain interaction state for executeTransfer: submission outcomes of the
two transfer writes, plus the confirmation state of each write on chain
(whether a receipt would arrive within sixty seconds).  The source never
waits on either receipt, so the confirmation fields record chain state the
function does not consult. -/
structure TransferEnv where
  submitNet : Except String String
  submitFee : Except String String
  receiptNet : Except String ℕ
  receiptFee : Except String ℕ

/-- executeTransfer (src/blockchain.js lines 151-184): submit the net-amount
transfer, then, when the fee is positive, submit the fee transfer, and
return; no receipt is awaited for either write. -/
def executeTransfer (env : TransferEnv) (amount : Dec) : Except String TransferOut :=
  let w := weiOf amount
  match env.submitNet with
  | Except.error e => Except.error e
  | Except.ok h1 =>
    if 0 < feeOfWei w then
      match env.submitFee with
      | Except.error e => Except.error e
      | Except.ok _ => Except.ok ⟨h1, w, feeOfWei w, netOfWei w⟩
    else Except.ok ⟨h1, w, feeOfWei w, netOfWei w⟩

/-- getAlphaUsdBalance (src/blockchain.js lines 203-215): format the balance
read result, catching any read failure and returning the string zero. -/
def getAlphaUsdBalance (readResult : Except String ℕ) : String :=
  match readResult with
  | Except.ok w => formatUnits6 w
  | Except.error _ => "0"

/-! P2P command processing model (src/p2p.js). -/

/-- A profile row from the profiles table. -/
structure Profile where
  id : String
  wallet_address : Option String
  tempo_address : Option String
  pay_tag : Option String
deriving DecidableEq, Repr

/-- Address fallback used at src/p2p.js lines 166 and 221 and
src/database.js line 111: the tempo address when present, else the generic
wallet address (JS or-else on possibly null fields). -/
def resolveAddr (p : Profile) : Option String :=
  match p.tempo_address with
  | some a => some a
  | none => p.wallet_address

/-- Structured content of the error_reason column, capturing the values
interpolated into the template strings of src/p2p.js and src/database.js. -/
inductive ErrReason where
  | insufficientBalance (balance : String) (totalNeeded : Dec)
  | noProfileFor (tag : String)
  | transferError (msg : String)
deriving DecidableEq, Repr

/-- A row of the monibot_transactions table. -/
structure TxRecord where
  tweet_id : String
  chain : String
  tx_hash : String
  sender_id : String
  receiver_id : String
  amount : Dec
  fee : Dec
  txType : String
  status : String
  payer_pay_tag : Option String
  recipient_pay_tag : Option String
  error_reason : Option ErrReason
  campaign_id : Option String
  replied : Bool
deriving DecidableEq, Repr

def MONIBOT_FALLBACK_ID : String := "00000000-0000-0000-0000-000000000000"

/-- logSkip (src/p2p.js lines 269-284). -/
def skipRec (monibotId : Option String) (tweetId txHash senderTag : String)
    (recipientTag : Option String) : TxRecord :=
  { tweet_id := tweetId, chain := "tempo", tx_hash := txHash,
    sender_id := monibotId.getD MONIBOT_FALLBACK_ID,
    receiver_id := monibotId.getD MONIBOT_FALLBACK_ID,
    amount := 0, fee := 0, txType := "p2p_command", status := "skipped",
    payer_pay_tag := some senderTag, recipient_pay_tag := recipientTag,
    error_reason := none, campaign_id := none, replied := false }

/-- The insufficient-balance failure row (src/p2p.js lines 174-188). -/
def insufficientRec (sp : Profile) (tweetId : String) (total : Dec)
    (balStr : String) (recipJoined : String) : TxRecord :=
  { tweet_id := tweetId, chain := "tempo", tx_hash := "ERROR_INSUFFICIENT_BALANCE",
    sender_id := sp.id, receiver_id := sp.id, amount := total, fee := 0,
    txType := "p2p_command", status := "failed", payer_pay_tag := sp.pay_tag,
    recipient_pay_tag := some recipJoined,
    error_reason := some (ErrReason.insufficientBalance balStr total),
    campaign_id := none, replied := false }

/-- The recipient-not-found failure row (src/p2p.js lines 203-217). -/
def recipientNotFoundRec (sp : Profile) (tweetId : String) (amount : Dec)
    (tag : String) : TxRecord :=
  { tweet_id := tweetId, chain := "tempo", tx_hash := "ERROR_RECIPIENT_NOT_FOUND",
    sender_id := sp.id, receiver_id := sp.id, amount := amount, fee := 0,
    txType := "p2p_command", status := "failed", payer_pay_tag := sp.pay_tag,
    recipient_pay_tag := some tag,
    error_reason := some (ErrReason.noProfileFor tag),
    campaign_id := none, replied := false }

/-- The completed-transfer row (src/p2p.js lines 226-239): the amount column
holds the parsed net amount and the fee column the parsed fee, both at six
decimals. -/
def completedRec (sp rp : Profile) (tweetId txHash : String) (w : ℕ) : TxRecord :=
  { tweet_id := tweetId, chain := "tempo", tx_hash := txHash,
    sender_id := sp.id, receiver_id := rp.id,
    amount := ⟨netOfWei w, 6⟩, fee := ⟨feeOfWei w, 6⟩,
    txType := "p2p_command", status := "completed", payer_pay_tag := sp.pay_tag,
    recipient_pay_tag := rp.pay_tag, error_reason := none,
    campaign_id := none, replied := false }

/-- The failed-transfer row (src/p2p.js lines 245-259); nowStr models the
Date.now timestamp in the sentinel hash. -/
def failedTransferRec (nowStr : String) (sp rp : Profile) (tweetId : String)
    (amount : Dec) (msg : String) : TxRecord :=
  { tweet_id := tweetId, chain := "tempo", tx_hash := "failed_" ++ nowStr,
    sender_id := sp.id, receiver_id := rp.id, amount := amount, fee := 0,
    txType := "p2p_command", status := "failed", payer_pay_tag := sp.pay_tag,
    recipient_pay_tag := rp.pay_tag,
    error_reason := some (ErrReason.transferError msg),
    campaign_id := none, replied := false }

/-- External collaborators of one processP2PCommand run: the datastore
lookups, the balance read keyed by address, and the outcome of the
n-th transfer attempted in this run. -/
structure P2PEnv where
  monibotProfileId : Option String
  senderProfile : Option Profile
  recipientProfile : String → Option Profile
  balanceRead : Option String → Except String ℕ
  transferOutcome : ℕ → Except String String
  nowStr : String

/-- Value the comparison at src/p2p.js line 172 sees: parseFloat of the
balance string, which is the read wei over ten to the six, or zero when the
read failed. -/
def balanceDec (r : Except String ℕ) : Dec :=
  match r with
  | Except.ok w => ⟨w, 6⟩
  | Except.error _ => 0

structure Author where
  id : String
  username : String
deriving DecidableEq, Repr

structure Tweet where
  id : String
  author_id : String
  text : String
  isQuote : Bool
deriving DecidableEq, Repr

def recordedIn (L : List TxRecord) (id : String) : Bool :=
  L.any (fun r => r.tweet_id == id)

/-- Direct imperative command pattern tested on quote tweets
(src/p2p.js line 135), case-insensitive. -/
def isWsChar (c : Char) : Bool :=
  c = ' ' || c = '\t' || c = '\n' || c = '\r' || c = '\x0b' || c = '\x0c'

def isWordChar (c : Char) : Bool := c.isAlpha || c.isDigit || c = '_'

/-- An optional dollar sign followed by a digit. -/
def matchAmountHead : List Char → Bool
  | '$' :: d :: _ => d.isDigit
  | c :: _ => c.isDigit
  | [] => false

/-- The word send, whitespace, then an amount head, at this position. -/
def matchSendAt (l : List Char) : Bool :=
  "send".data.isPrefixOf l &&
    (match l.drop 4 with
     | c :: rest => isWsChar c && matchAmountHead (rest.dropWhile isWsChar)
     | [] => false)

/-- The word pay, whitespace, an optional at sign, a word, whitespace, then
an amount head, at this position. -/
def matchPayAt (l : List Char) : Bool :=
  "pay".data.isPrefixOf l &&
    (match l.drop 3 with
     | c :: rest =>
       isWsChar c &&
         (let r2 := rest.dropWhile isWsChar
          let r3 := match r2 with
            | '@' :: t => t
            | _ => r2
          match r3 with
          | w :: _ =>
            isWordChar w &&
              (match r3.dropWhile isWordChar with
               | s :: srest => isWsChar s && matchAmountHead (srest.dropWhile isWsChar)
               | [] => false)
          | [] => false)
     | [] => false)

def hasDirectCommandAux : List Char → Bool
  | [] => false
  | c :: rest => matchSendAt (c :: rest) || matchPayAt (c :: rest) || hasDirectCommandAux rest

def hasDirectCommand (text : String) : Bool :=
  hasDirectCommandAux (lowerChars text.data)

example : hasDirectCommand "Check this out, send $5 to @a" = true := by decide

example : hasDirectCommand "so cool, love tempo and alphausd @monibot" = false := by decide

example : hasDirectCommand "pay @bob $10 on tempo" = true := by decide

/-- Keyword relevance filter (src/p2p.js lines 24-29). -/
def TEMPO_KEYWORDS : List String := ["on tempo", "tempo", "alphausd", "αusd"]

def isTempoRelated (text : String) : Bool :=
  TEMPO_KEYWORDS.any (fun kw => containsSub kw.data (lowerChars text.data))

/-- Result of one processP2PCommand run: the returned flag, the ledger after
the run, and the transfer-primitive invocations made (resolved address and
requested amount), in order. -/
structure ProcResult where
  handled : Bool
  ledger : List TxRecord
  calls : List (Option String × Dec)
deriving DecidableEq, Repr

/-- The per-recipient loop (src/p2p.js lines 194-261); idx counts transfer
invocations made so far in this run. -/
def processRecipients (env : P2PEnv) (tweetId : String) (sp : Profile) (amount : Dec) :
    List String → ℕ → ℕ × List TxRecord × List (Option String × Dec)
  | [], _ => (0, [], [])
  | tag :: rest, idx =>
    match env.recipientProfile tag with
    | none =>
      let r := processRecipients env tweetId sp amount rest idx
      (r.1, recipientNotFoundRec sp tweetId amount tag :: r.2.1, r.2.2)
    | some rp =>
      let addr := resolveAddr rp
      match env.transferOutcome idx with
      | Except.ok h =>
        let r := processRecipients env tweetId sp amount rest (idx + 1)
        (r.1 + 1, completedRec sp rp tweetId h (weiOf amount) :: r.2.1, (addr, amount) :: r.2.2)
      | Except.error msg =>
        let r := processRecipients env tweetId sp amount rest (idx + 1)
        (r.1, failedTransferRec env.nowStr sp rp tweetId amount msg :: r.2.1, (addr, amount) :: r.2.2)

/-- processP2PCommand (src/p2p.js lines 122-265): dedup gate, quote-tweet
command gate, parse, sender resolution, balance gate, then the
per-recipient resolve-execute-record loop. -/
def processP2PCommand (env : P2PEnv) (L : List TxRecord) (t : Tweet)
    (author : Author) : ProcResult :=
  if recordedIn L t.id then ⟨false, L, []⟩
  else if t.isQuote && !hasDirectCommand t.text then
    ⟨false, L ++ [skipRec env.monibotProfileId t.id "SKIP_QUOTE_NOT_COMMAND" author.username none], []⟩
  else
    match parseP2PCommand t.text with
    | none =>
      ⟨false, L ++ [skipRec env.monibotProfileId t.id "SKIP_PARSE_FAILED" author.username none], []⟩
    | some p =>
      match env.senderProfile with
      | none =>
        ⟨false, L ++ [skipRec env.monibotProfileId t.id "ERROR_SENDER_NOT_FOUND" author.username p.recipients.head?], []⟩
      | some sp =>
        let senderAddr := resolveAddr sp
        let balStr := getAlphaUsdBalance (env.balanceRead senderAddr)
        let bal := balanceDec (env.balanceRead senderAddr)
        let total := p.amount.mulNat p.recipients.length
        if bal < total then
          ⟨false, L ++ [insufficientRec sp t.id total balStr (String.intercalate "," p.recipients)], []⟩
        else
          let r := processRecipients env t.id sp p.amount p.recipients 0
          ⟨decide (0 < r.1), L ++ r.2.1, r.2.2⟩

/-! Poller model (src/p2p.js lines 65-118). -/

structure SearchData where
  tweets : List Tweet
  users : List Author
  newest_id : Option String

/-- External collaborators of one poll cycle: the search call result (error
is a thrown search failure; ok none is a response with no data), the
per-command environment, and which tweet ids hit an infrastructure failure
inside processP2PCommand (whose throw the loop catches). -/
structure PollEnv where
  search : Except String (Option SearchData)
  proc : P2PEnv
  infraFail : String → Bool

structure PollState where
  cursor : Option String
  ledger : List TxRecord
deriving DecidableEq, Repr

/-- Body of the per-tweet loop (src/p2p.js lines 99-112). -/
def pollStep (env : PollEnv) (users : List Author) (acc : ℕ × List TxRecord)
    (t : Tweet) : ℕ × List TxRecord :=
  match users.find? (fun u => u.id == t.author_id) with
  | none => acc
  | some author =>
    if !isTempoRelated t.text then acc
    else if env.infraFail t.id then acc
    else
      let r := processP2PCommand env.proc acc.2 t author
      (acc.1 + (if r.handled then 1 else 0), r.ledger)

/-- pollP2PCommands (src/p2p.js lines 65-118): on a successful search with
data, the since-id cursor is advanced to the newest returned id before any
tweet is processed; a search failure or empty response leaves the state
unchanged. -/
def pollP2PCommands (env : PollEnv) (st : PollState) : ℕ × PollState :=
  match env.search with
  | Except.error _ => (0, st)
  | Except.ok none => (0, st)
  | Except.ok (some sd) =>
    let cursor := match sd.newest_id with
      | some n => some n
      | none => st.cursor
    let r := sd.tweets.foldl (pollStep env sd.users) (0, st.ledger)
    (r.1, ⟨cursor, r.2⟩)

/-! Helper lemmas. -/

theorem feeOfWei_le (w : ℕ) : feeOfWei w ≤ w := by
  unfold feeOfWei FEE_BPS
  calc w * 130 / 10000 ≤ w * 10000 / 10000 :=
        Nat.div_le_div_right (Nat.mul_le_mul_left w (by norm_num))
    _ = w := Nat.mul_div_cancel w (by norm_num)

theorem fee_add_net (w : ℕ) : feeOfWei w + netOfWei w = w := by
  have h := feeOfWei_le w
  unfold netOfWei
  omega

/-- C4: for every decimal amount scaled to the six-decimal smallest unit,
both executeGrant and executeTransfer compute the fee as the floor of
amountWei times 130 over 10000 and the net amount as amountWei minus the
fee, in exact integer arithmetic, so fee plus net equals amountWei exactly;
for amount 10.00 the wei amount is 10000000, the fee 130000 (printed 0.13)
and the net 9870000 (printed 9.87). -/
theorem fee_arithmetic_exact (a : Dec) (genv : GrantEnv) (tenv : TransferEnv)
    (g : TransferOut × ℕ) (r : TransferOut)
    (hg : executeGrant genv a = Except.ok g)
    (hr : executeTransfer tenv a = Except.ok r) :
    (g.1.amountWei = weiOf a ∧ g.1.feeWei = weiOf a * 130 / 10000 ∧
      g.1.netWei = weiOf a - g.1.feeWei ∧ g.1.feeWei + g.1.netWei = g.1.amountWei) ∧
    (r.amountWei = weiOf a ∧ r.feeWei = weiOf a * 130 / 10000 ∧
      r.netWei = weiOf a - r.feeWei ∧ r.feeWei + r.netWei = r.amountWei) ∧
    (weiOf ⟨1000, 2⟩ = 10000000 ∧ feeOfWei 10000000 = 130000 ∧
      netOfWei 10000000 = 9870000 ∧
      formatUnits6 130000 = "0.13" ∧ formatUnits6 9870000 = "9.87") := by
  refine ⟨?_, ?_, by decide⟩
  · unfold executeGrant at hg
    rcases hs : genv.submitWrite with e | h
    · rw [hs] at hg; exact absurd hg (by simp)
    · rw [hs] at hg
      rcases hw : genv.receiptWait with e | bn
      · rw [hw] at hg; exact absurd hg (by simp)
      · rw [hw] at hg
        simp only [Except.ok.injEq] at hg
        subst hg
        exact ⟨rfl, rfl, rfl, fee_add_net _⟩
  · unfold executeTransfer at hr
    rcases hs : tenv.submitNet with e | h1
    · rw [hs] at hr; exact absurd hr (by simp)
    · simp only [hs] at hr
      by_cases hf : 0 < feeOfWei (weiOf a)
      · rw [if_pos hf] at hr
        rcases hf2 : tenv.submitFee with e | h2
        · rw [hf2] at hr; exact absurd hr (by simp)
        · rw [hf2] at hr
          simp only [Except.ok.injEq] at hr
          subst hr
          exact ⟨rfl, rfl, rfl, fee_add_net _⟩
      · rw [if_neg hf] at hr
        simp only [Except.ok.injEq] at hr
        subst hr
        exact ⟨rfl, rfl, rfl, fee_add_net _⟩

theorem fee_arithmetic_exact_witness :
    ((⟨"0xg", 10000000, 130000, 9870000⟩ : TransferOut).amountWei = weiOf ⟨1000, 2⟩ ∧
      (⟨"0xg", 10000000, 130000, 9870000⟩ : TransferOut).feeWei = weiOf ⟨1000, 2⟩ * 130 / 10000 ∧
      (⟨"0xg", 10000000, 130000, 9870000⟩ : TransferOut).netWei =
        weiOf ⟨1000, 2⟩ - (⟨"0xg", 10000000, 130000, 9870000⟩ : TransferOut).feeWei ∧
      (⟨"0xg", 10000000, 130000, 9870000⟩ : TransferOut).feeWei +
        (⟨"0xg", 10000000, 130000, 9870000⟩ : TransferOut).netWei =
        (⟨"0xg", 10000000, 130000, 9870000⟩ : TransferOut).amountWei) ∧
    ((⟨"0xt", 10000000, 130000, 9870000⟩ : TransferOut).amountWei = weiOf ⟨1000, 2⟩ ∧
      (⟨"0xt", 10000000, 130000, 9870000⟩ : TransferOut).feeWei = weiOf ⟨1000, 2⟩ * 130 / 10000 ∧
      (⟨"0xt", 10000000, 130000, 9870000⟩ : TransferOut).netWei =
        weiOf ⟨1000, 2⟩ - (⟨"0xt", 10000000, 130000, 9870000⟩ : TransferOut).feeWei ∧
      (⟨"0xt", 10000000, 130000, 9870000⟩ : TransferOut).feeWei +
        (⟨"0xt", 10000000, 130000, 9870000⟩ : TransferOut).netWei =
        (⟨"0xt", 10000000, 130000, 9870000⟩ : TransferOut).amountWei) ∧
    (weiOf ⟨1000, 2⟩ = 10000000 ∧ feeOfWei 10000000 = 130000 ∧
      netOfWei 10000000 = 9870000 ∧
      formatUnits6 130000 = "0.13" ∧ formatUnits6 9870000 = "9.87") :=
  fee_arithmetic_exact ⟨1000, 2⟩ ⟨Except.ok "0xg", Except.ok 1⟩
    ⟨Except.ok "0xt", Except.ok "0xf", Except.ok 1, Except.ok 1⟩
    (⟨"0xg", 10000000, 130000, 9870000⟩, 1) ⟨"0xt", 10000000, 130000, 9870000⟩
    (by decide) (by decide)

/-! C3: confirmation waiting. -/

def c3TransferEnv : TransferEnv :=
  ⟨Except.ok "0xaaa", Except.ok "0xbbb", Except.error "timeout", Except.error "timeout"⟩

/-- C3 counterexample: executeTransfer returns a success result from an
environment in which neither of its two writes ever confirms (both receipt
waits would time out), so the fallback path does not block until
confirmation and a timeout does not surface as a thrown failure there. -/
theorem transfer_returns_unconfirmed :
    (executeTransfer c3TransferEnv ⟨5, 0⟩).isOk = true ∧
    c3TransferEnv.receiptNet = Except.error "timeout" ∧
    c3TransferEnv.receiptFee = Except.error "timeout" := by decide

/-- C3 amended: executeGrant blocks on the receipt wait bounded by sixty
seconds and returns success only when both the submission and the receipt
wait succeed, a wait failure surfacing as a thrown error; executeTransfer,
by contrast, depends only on the two submission outcomes and never on the
confirmation state of either write, so it can return success for
unconfirmed writes. -/
theorem confirmation_wait_amended (a : Dec) (genv : GrantEnv) (tenv tenv2 : TransferEnv)
    (hnet : tenv.submitNet = tenv2.submitNet) (hfee : tenv.submitFee = tenv2.submitFee) :
    ((executeGrant genv a).isOk = true →
      genv.submitWrite.isOk = true ∧ genv.receiptWait.isOk = true) ∧
    (genv.receiptWait.isOk = false → (executeGrant genv a).isOk = false) ∧
    executeTransfer tenv a = executeTransfer tenv2 a := by
  refine ⟨?_, ?_, ?_⟩
  · intro h
    unfold executeGrant at h
    rcases hs : genv.submitWrite with e | hh
    · rw [hs] at h; simp [Except.isOk, Except.toBool] at h
    · rw [hs] at h
      rcases hw : genv.receiptWait with e | bn
      · rw [hw] at h; simp [Except.isOk, Except.toBool] at h
      · exact ⟨by simp [hs, Except.isOk, Except.toBool], by simp [hw, Except.isOk, Except.toBool]⟩
  · intro h
    unfold executeGrant
    rcases hs : genv.submitWrite with e | hh
    · simp [Except.isOk, Except.toBool]
    · rcases hw : genv.receiptWait with e | bn
      · simp [Except.isOk, Except.toBool]
      · rw [hw] at h; simp [Except.isOk, Except.toBool] at h
  · unfold executeTransfer
    rw [hnet, hfee]

theorem confirmation_wait_amended_witness :
    (((executeGrant ⟨Except.ok "0xg", Except.error "timeout"⟩ ⟨5, 0⟩).isOk = true →
      (Except.ok "0xg" : Except String String).isOk = true ∧
      (Except.error "timeout" : Except String ℕ).isOk = true) ∧
    ((Except.error "timeout" : Except String ℕ).isOk = false →
      (executeGrant ⟨Except.ok "0xg", Except.error "timeout"⟩ ⟨5, 0⟩).isOk = false) ∧
    executeTransfer ⟨Except.ok "0xa", Except.ok "0xb", Except.ok 1, Except.ok 1⟩ ⟨5, 0⟩ =
      executeTransfer ⟨Except.ok "0xa", Except.ok "0xb", Except.error "t", Except.error "t"⟩ ⟨5, 0⟩) :=
  confirmation_wait_amended ⟨5, 0⟩ ⟨Except.ok "0xg", Except.error "timeout"⟩
    ⟨Except.ok "0xa", Except.ok "0xb", Except.ok 1, Except.ok 1⟩
    ⟨Except.ok "0xa", Except.ok "0xb", Except.error "t", Except.error "t"⟩
    rfl rfl

/-! Parser lemmas and C5. -/

theorem Dec.le_def (a b : Dec) : (a ≤ b) = (a.m * 10 ^ b.e ≤ b.m * 10 ^ a.e) := rfl

theorem Dec.lt_def (a b : Dec) : (a < b) = (a.m * 10 ^ b.e < b.m * 10 ^ a.e) := rfl

theorem Dec.zero_m : (0 : Dec).m = 0 := rfl

theorem Dec.zero_e : (0 : Dec).e = 0 := rfl

theorem Dec.pos_of_not_nonpos {a : Dec} (h : ¬ a ≤ 0) : 0 < a := by
  rw [Dec.le_def] at h
  rw [Dec.lt_def]
  simp only [Dec.zero_m, Dec.zero_e, pow_zero, Nat.mul_one, Nat.zero_mul] at h ⊢
  omega

theorem Dec.le_of_not_lt {a b : Dec} (h : ¬ b < a) : a ≤ b := by
  rw [Dec.lt_def] at h
  rw [Dec.le_def]
  omega

theorem mentionTags_not_reserved (text : List Char) :
    ∀ r ∈ mentionTags text, r ≠ "monibot" ∧ r ≠ "monipay" := by
  intro r hr
  unfold mentionTags at hr
  rw [List.mem_filter] at hr
  have h2 := hr.2
  simp only [Bool.and_eq_true, bne_iff_ne, ne_eq] at h2
  exact ⟨h2.1, h2.2⟩

theorem parse_some_facts (text : String) (p : Intent)
    (h : parseP2PCommand text = some p) :
    0 < p.amount ∧ p.amount ≤ 10000 ∧ p.recipients ≠ [] ∧
    p.recipients = mentionTags text.data := by
  unfold parseP2PCommand at h
  rcases hFA : findAmount (lowerChars text.data) with _ | ⟨ip, fr⟩
  · simp only [hFA] at h; exact absurd h (by simp)
  · simp only [hFA] at h
    by_cases hv : decValue ip fr ≤ 0 ∨ 10000 < decValue ip fr
    · rw [if_pos hv] at h; exact absurd h (by simp)
    · rw [if_neg hv] at h
      push_neg at hv
      by_cases hm : mentionTags text.data = []
      · rw [if_pos hm] at h; exact absurd h (by simp)
      · rw [if_neg hm] at h
        simp only [Option.some.injEq] at h
        subst h
        exact ⟨Dec.pos_of_not_nonpos hv.1, Dec.le_of_not_lt hv.2, hm, rfl⟩

/-- C5: the parser is a pure function returning none exactly when no
dollar-amount token is found in the lowercased text, or the extracted
amount is non-positive or exceeds 10000, or the mention set is empty after
excluding the reserved bot handles; a returned intent has a positive amount
of at most 10000 and a non-empty recipient list excluding the reserved
handles. -/
theorem parse_null_characterization (text : String) (i : Intent) :
    (parseP2PCommand text = none ↔
      findAmount (lowerChars text.data) = none ∨
      (∃ ip fr, findAmount (lowerChars text.data) = some (ip, fr) ∧
        (decValue ip fr ≤ 0 ∨ 10000 < decValue ip fr)) ∨
      mentionTags text.data = []) ∧
    (parseP2PCommand text = some i →
      0 < i.amount ∧ i.amount ≤ 10000 ∧ i.recipients ≠ [] ∧
      ∀ r ∈ i.recipients, r ≠ "monibot" ∧ r ≠ "monipay") := by
  constructor
  · rcases hFA : findAmount (lowerChars text.data) with _ | ⟨ip, fr⟩
    · exact ⟨fun _ => Or.inl rfl, fun _ => by simp [parseP2PCommand, hFA]⟩
    · by_cases hv : decValue ip fr ≤ 0 ∨ 10000 < decValue ip fr
      · exact ⟨fun _ => Or.inr (Or.inl ⟨ip, fr, rfl, hv⟩),
          fun _ => by simp only [parseP2PCommand, hFA]; rw [if_pos hv]⟩
      · by_cases hm : mentionTags text.data = []
        · exact ⟨fun _ => Or.inr (Or.inr hm),
            fun _ => by simp only [parseP2PCommand, hFA]; rw [if_neg hv, if_pos hm]⟩
        · constructor
          · intro hnone
            exfalso
            simp only [parseP2PCommand, hFA, if_neg hv, if_neg hm] at hnone
            exact Option.noConfusion hnone
          · rintro (h1 | ⟨ip2, fr2, heq, hv2⟩ | h3)
            · exact absurd h1 (by simp)
            · simp only [Option.some.injEq, Prod.mk.injEq] at heq
              obtain ⟨h1', h2'⟩ := heq
              subst h1'
              subst h2'
              exact absurd hv2 hv
            · exact absurd h3 hm
  · intro h
    have hf := parse_some_facts text i h
    refine ⟨hf.1, hf.2.1, hf.2.2.1, ?_⟩
    rw [hf.2.2.2]
    exact mentionTags_not_reserved _

theorem parse_null_characterization_witness :
    (0 : Dec) < ⟨5, 0⟩ ∧ (⟨5, 0⟩ : Dec) ≤ 10000 :=
  have h := (parse_null_characterization "@monibot send $5 to @alice on tempo"
    ⟨⟨5, 0⟩, ["alice"], false⟩).2 (by decide)
  ⟨h.1, h.2.1⟩

/-! Campaign queue model (src/database.js lines 29-167): the per-reply body
of the reply loop of processCampaignQueue. -/

/-- JS addition of two decimal numbers, at a common scale. -/
def Dec.add (a b : Dec) : Dec := ⟨a.m * 10 ^ b.e + b.m * 10 ^ a.e, a.e + b.e⟩

/-- A row of the campaigns table (the fields the reply loop reads). -/
structure Campaign where
  id : String
  grant_amount : Dec
  max_participants : Option ℕ
  current_participants : ℕ
  budget_spent : Dec
deriving DecidableEq, Repr

/-- Capacity check (src/database.js line 79); the source tests the
truthiness of max_participants, so a null or zero bound never blocks. -/
def capacityReached (c : Campaign) : Bool :=
  match c.max_participants with
  | none => false
  | some mp => decide (0 < mp) && decide (mp ≤ c.current_participants)

/-- The skip row for a reply author without a profile
(src/database.js lines 96-107). -/
def grantSkipRec (c : Campaign) (tweetId username : String) : TxRecord :=
  { tweet_id := tweetId, chain := "tempo", tx_hash := "skip_no_profile",
    sender_id := c.id, receiver_id := c.id, amount := c.grant_amount, fee := 0,
    txType := "grant", status := "skipped", payer_pay_tag := none,
    recipient_pay_tag := none, error_reason := some (ErrReason.noProfileFor username),
    campaign_id := none, replied := false }

/-- The completed grant row (src/database.js lines 116-129). -/
def grantCompletedRec (c : Campaign) (profile : Profile) (tweetId txHash : String)
    (w : ℕ) : TxRecord :=
  { tweet_id := tweetId, chain := "tempo", tx_hash := txHash,
    sender_id := c.id, receiver_id := profile.id, amount := c.grant_amount,
    fee := ⟨feeOfWei w, 6⟩, txType := "grant", status := "completed",
    payer_pay_tag := none, recipient_pay_tag := profile.pay_tag,
    error_reason := none, campaign_id := some c.id, replied := false }

/-- The failed grant row (src/database.js lines 144-155). -/
def grantFailedRec (nowStr : String) (c : Campaign) (profile : Profile)
    (tweetId msg : String) : TxRecord :=
  { tweet_id := tweetId, chain := "tempo", tx_hash := "failed_" ++ nowStr,
    sender_id := c.id, receiver_id := profile.id, amount := c.grant_amount, fee := 0,
    txType := "grant", status := "failed", payer_pay_tag := none,
    recipient_pay_tag := none, error_reason := some (ErrReason.transferError msg),
    campaign_id := none, replied := false }

/-- External collaborators of one reply-processing step: the expanded users
of the search response, the profile lookup by username, and the outcome of
the executeGrant call for this reply. -/
structure CampaignEnv where
  users : List Author
  profileFor : String → Option Profile
  grantOutcome : Except String String
  nowStr : String

/-- Result of one reply step: the ledger and campaign row after it, the
executeGrant invocations made (resolved address and amount), the processed
increment, and whether the loop broke on capacity. -/
structure CampStepResult where
  ledger : List TxRecord
  campaign : Campaign
  grants : List (Option String × Dec)
  processedInc : ℕ
  halt : Bool
deriving DecidableEq, Repr

/-- One iteration of the reply loop of processCampaignQueue
(src/database.js lines 68-157): dedup gate on the reply id first, then the
capacity check, author expansion, profile resolution with the same address
fallback, and the executeGrant-then-record step with the campaign counter
update on success. -/
def processCampaignReply (env : CampaignEnv) (c : Campaign) (L : List TxRecord)
    (reply : Tweet) : CampStepResult :=
  if recordedIn L reply.id then ⟨L, c, [], 0, false⟩
  else if capacityReached c then ⟨L, c, [], 0, true⟩
  else
    match env.users.find? (fun u => u.id == reply.author_id) with
    | none => ⟨L, c, [], 0, false⟩
    | some author =>
      match env.profileFor author.username with
      | none => ⟨L ++ [grantSkipRec c reply.id author.username], c, [], 0, false⟩
      | some profile =>
        let addr := resolveAddr profile
        match env.grantOutcome with
        | Except.ok h =>
          ⟨L ++ [grantCompletedRec c profile reply.id h (weiOf c.grant_amount)],
            { c with current_participants := c.current_participants + 1,
                     budget_spent := c.budget_spent.add c.grant_amount },
            [(addr, c.grant_amount)], 1, false⟩
        | Except.error msg =>
          ⟨L ++ [grantFailedRec env.nowStr c profile reply.id msg], c,
            [(addr, c.grant_amount)], 0, false⟩

/-- Number of ledger rows carrying a given source event id. -/
def countFor (id : String) (L : List TxRecord) : ℕ :=
  (L.filter (fun r => r.tweet_id == id)).length

/-! Process-level lemmas. -/

theorem recordedIn_iff (L : List TxRecord) (id : String) :
    recordedIn L id = true ↔ ∃ r ∈ L, r.tweet_id = id := by
  simp [recordedIn, List.any_eq_true, beq_iff_eq]

theorem countFor_append (id : String) (L s : List TxRecord) :
    countFor id (L ++ s) = countFor id L + countFor id s := by
  unfold countFor
  rw [List.filter_append, List.length_append]

theorem countFor_le_length (id : String) (s : List TxRecord) :
    countFor id s ≤ s.length :=
  List.length_filter_le _ s

theorem recordedIn_false_of_countFor_zero (id : String) (L : List TxRecord)
    (h : countFor id L = 0) : recordedIn L id = false := by
  rcases hr : recordedIn L id with _ | _
  · rfl
  · obtain ⟨r, hm, hid⟩ := (recordedIn_iff L id).mp hr
    have hmem : r ∈ L.filter (fun r => r.tweet_id == id) :=
      List.mem_filter.mpr ⟨hm, by rw [hid]; exact beq_self_eq_true id⟩
    unfold countFor at h
    rw [List.length_eq_zero] at h
    rw [h] at hmem
    exact absurd hmem (List.not_mem_nil r)

theorem campaignReply_recorded_noop (cenv : CampaignEnv) (c : Campaign)
    (L : List TxRecord) (reply : Tweet) (h : recordedIn L reply.id = true) :
    processCampaignReply cenv c L reply = ⟨L, c, [], 0, false⟩ := by
  unfold processCampaignReply
  simp [h]

theorem campaignReply_shape (cenv : CampaignEnv) (c : Campaign)
    (L : List TxRecord) (reply : Tweet) :
    ∃ s, (processCampaignReply cenv c L reply).ledger = L ++ s ∧ s.length ≤ 1 ∧
      ∀ r ∈ s, r.tweet_id = reply.id := by
  unfold processCampaignReply
  rcases hrec : recordedIn L reply.id with _ | _
  · rcases hcap : capacityReached c with _ | _
    · rcases hfind : cenv.users.find? (fun u => u.id == reply.author_id) with _ | author
      · exact ⟨[], by simp [hrec, hcap, hfind], by simp, by simp⟩
      · rcases hprof : cenv.profileFor author.username with _ | profile
        · refine ⟨[grantSkipRec c reply.id author.username],
            by simp [hrec, hcap, hfind, hprof], by simp, ?_⟩
          intro r hr
          rcases List.mem_singleton.mp hr with rfl
          rfl
        · rcases hg : cenv.grantOutcome with msg | hx
          · refine ⟨[grantFailedRec cenv.nowStr c profile reply.id msg],
              by simp [hrec, hcap, hfind, hprof, hg], by simp, ?_⟩
            intro r hr
            rcases List.mem_singleton.mp hr with rfl
            rfl
          · refine ⟨[grantCompletedRec c profile reply.id hx (weiOf c.grant_amount)],
              by simp [hrec, hcap, hfind, hprof, hg], by simp, ?_⟩
            intro r hr
            rcases List.mem_singleton.mp hr with rfl
            rfl
    · exact ⟨[], by simp [hrec, hcap], by simp, by simp⟩
  · exact ⟨[], by simp [hrec], by simp, by simp⟩

theorem process_recorded_noop (env : P2PEnv) (L : List TxRecord) (t : Tweet)
    (a : Author) (h : recordedIn L t.id = true) :
    processP2PCommand env L t a = ⟨false, L, []⟩ := by
  unfold processP2PCommand
  simp [h]

theorem processRecipients_facts (env : P2PEnv) (tid : String) (sp : Profile) (amt : Dec) :
    ∀ (tags : List String) (idx : ℕ),
      (processRecipients env tid sp amt tags idx).2.1.length = tags.length ∧
      ∀ r ∈ (processRecipients env tid sp amt tags idx).2.1, r.tweet_id = tid := by
  intro tags
  induction tags with
  | nil =>
    intro idx
    exact ⟨rfl, by intro r hr; exact absurd hr (List.not_mem_nil r)⟩
  | cons tag rest ih =>
    intro idx
    rcases hrp : env.recipientProfile tag with _ | rp
    · simp only [processRecipients, hrp]
      refine ⟨by simp [(ih idx).1], ?_⟩
      intro r hr
      rcases List.mem_cons.mp hr with h | h
      · subst h; rfl
      · exact (ih idx).2 r h
    · rcases hto : env.transferOutcome idx with msg | hx
      · simp only [processRecipients, hrp, hto]
        refine ⟨by simp [(ih (idx + 1)).1], ?_⟩
        intro r hr
        rcases List.mem_cons.mp hr with h | h
        · subst h; rfl
        · exact (ih (idx + 1)).2 r h
      · simp only [processRecipients, hrp, hto]
        refine ⟨by simp [(ih (idx + 1)).1], ?_⟩
        intro r hr
        rcases List.mem_cons.mp hr with h | h
        · subst h; rfl
        · exact (ih (idx + 1)).2 r h

/-- Bound on records a single fresh pass appends for an event. -/
def recipientBound (text : String) : ℕ :=
  match parseP2PCommand text with
  | some p => p.recipients.length
  | none => 1

theorem process_fresh_shape (env : P2PEnv) (L : List TxRecord) (t : Tweet)
    (a : Author) (h : recordedIn L t.id = false) :
    ∃ s : List TxRecord, s ≠ [] ∧
      (processP2PCommand env L t a).ledger = L ++ s ∧
      (∀ r ∈ s, r.tweet_id = t.id) ∧
      s.length ≤ max 1 (recipientBound t.text) := by
  unfold processP2PCommand
  rcases hq : t.isQuote && !hasDirectCommand t.text with _ | _
  · rcases hp : parseP2PCommand t.text with _ | p
    · refine ⟨[skipRec env.monibotProfileId t.id "SKIP_PARSE_FAILED" a.username none],
        by simp, by simp [h, hq, hp], ?_, by simp⟩
      intro r hr
      rcases List.mem_singleton.mp hr with rfl
      rfl
    · rcases hs : env.senderProfile with _ | sp
      · refine ⟨[skipRec env.monibotProfileId t.id "ERROR_SENDER_NOT_FOUND" a.username p.recipients.head?],
          by simp, by simp [h, hq, hp, hs], ?_, by simp⟩
        intro r hr
        rcases List.mem_singleton.mp hr with rfl
        rfl
      · by_cases hb : balanceDec (env.balanceRead (resolveAddr sp)) <
            p.amount.mulNat p.recipients.length
        · refine ⟨[insufficientRec sp t.id (p.amount.mulNat p.recipients.length)
              (getAlphaUsdBalance (env.balanceRead (resolveAddr sp)))
              (String.intercalate "," p.recipients)],
            by simp, by simp [h, hq, hp, hs, hb], ?_, by simp⟩
          intro r hr
          rcases List.mem_singleton.mp hr with rfl
          rfl
        · have hfacts := processRecipients_facts env t.id sp p.amount p.recipients 0
          have hne := (parse_some_facts t.text p hp).2.2.1
          refine ⟨(processRecipients env t.id sp p.amount p.recipients 0).2.1,
            ?_, by simp [h, hq, hp, hs, hb], hfacts.2, ?_⟩
          · intro hnil
            have := hfacts.1
            rw [hnil] at this
            exact hne (List.eq_nil_of_length_eq_zero this.symm)
          · rw [hfacts.1]
            unfold recipientBound
            rw [hp]
            exact le_max_right 1 p.recipients.length
  · refine ⟨[skipRec env.monibotProfileId t.id "SKIP_QUOTE_NOT_COMMAND" a.username none],
      by simp, by simp [h, hq], ?_, by simp⟩
    intro r hr
    rcases List.mem_singleton.mp hr with rfl
    rfl

theorem process_recorded_after (env : P2PEnv) (L : List TxRecord) (t : Tweet)
    (a : Author) :
    recordedIn (processP2PCommand env L t a).ledger t.id = true := by
  rcases hrec : recordedIn L t.id with _ | _
  · obtain ⟨s, hne, hap, hall, _⟩ := process_fresh_shape env L t a hrec
    rw [hap]
    rw [recordedIn_iff]
    rcases s with _ | ⟨r0, srest⟩
    · exact absurd rfl hne
    · exact ⟨r0, List.mem_append_right L (List.mem_cons_self r0 srest),
        hall r0 (List.mem_cons_self r0 srest)⟩
  · rw [process_recorded_noop env L t a hrec]
    exact hrec

/-- C1: once any TransactionRecord exists for a source event id, a
processing pass over that event is a no-op under both dedup gates: the
direct-command processor returns early with no transfer invocation and no
insert, leaving the ledger unchanged, and the campaign reply step likewise
makes no grant call, no insert and no campaign update; hence a second
direct-command pass over any event never inserts further records, and two
campaign passes over an event with no prior record leave at most one
record for that id. -/
theorem dedup_idempotent (env env2 : P2PEnv) (cenv cenv2 : CampaignEnv)
    (c c2 : Campaign) (L : List TxRecord) (t : Tweet) (a a2 : Author) :
    ((∃ r ∈ L, r.tweet_id = t.id) → processP2PCommand env L t a = ⟨false, L, []⟩) ∧
    processP2PCommand env2 (processP2PCommand env L t a).ledger t a2 =
      ⟨false, (processP2PCommand env L t a).ledger, []⟩ ∧
    ((∃ r ∈ L, r.tweet_id = t.id) →
      processCampaignReply cenv c L t = ⟨L, c, [], 0, false⟩) ∧
    (countFor t.id L = 0 →
      countFor t.id
        (processCampaignReply cenv2 c2 (processCampaignReply cenv c L t).ledger t).ledger
        ≤ 1) := by
  refine ⟨?_, ?_, ?_, ?_⟩
  · intro hex
    exact process_recorded_noop env L t a ((recordedIn_iff L t.id).mpr hex)
  · exact process_recorded_noop env2 _ t a2 (process_recorded_after env L t a)
  · intro hex
    exact campaignReply_recorded_noop cenv c L t ((recordedIn_iff L t.id).mpr hex)
  · intro h0
    obtain ⟨s1, hap1, hlen1, hall1⟩ := campaignReply_shape cenv c L t
    rcases s1 with _ | ⟨r1, s1t⟩
    · rw [List.append_nil] at hap1
      obtain ⟨s2, hap2, hlen2, hall2⟩ :=
        campaignReply_shape cenv2 c2 (processCampaignReply cenv c L t).ledger t
      rw [hap2, hap1, countFor_append, h0, Nat.zero_add]
      exact le_trans (countFor_le_length t.id s2) hlen2
    · have hnil : s1t = [] := by
        simp only [List.length_cons] at hlen1
        exact List.eq_nil_of_length_eq_zero (by omega)
      subst hnil
      have hr1 : r1.tweet_id = t.id := hall1 r1 (List.mem_singleton_self r1)
      have hrec2 : recordedIn (processCampaignReply cenv c L t).ledger t.id = true := by
        rw [hap1, recordedIn_iff]
        exact ⟨r1, List.mem_append_right L (List.mem_singleton_self r1), hr1⟩
      rw [campaignReply_recorded_noop cenv2 c2 _ t hrec2]
      rw [hap1, countFor_append, h0, Nat.zero_add]
      exact le_trans (countFor_le_length t.id [r1]) (by simp)

def c1Sender : Profile := ⟨"sender-1", some "0xS1", none, some "sender.one"⟩

def c1Record : TxRecord :=
  { tweet_id := "42", chain := "tempo", tx_hash := "0xold", sender_id := "sender-1",
    receiver_id := "alice-1", amount := ⟨4935000, 6⟩, fee := ⟨65000, 6⟩,
    txType := "p2p_command", status := "completed", payer_pay_tag := some "sender.one",
    recipient_pay_tag := some "alice.tag", error_reason := none,
    campaign_id := none, replied := false }

def c1Env : P2PEnv :=
  { monibotProfileId := some "mb-1", senderProfile := some c1Sender,
    recipientProfile := fun _ => none,
    balanceRead := fun _ => Except.ok 100000000,
    transferOutcome := fun _ => Except.ok "0xnew",
    nowStr := "1700000000000" }

def c1Tweet : Tweet := ⟨"42", "u1", "@monibot send $5 to @alice on tempo", false⟩

def c1Author : Author := ⟨"u1", "carol"⟩

def c1Campaign : Campaign := ⟨"camp-1", ⟨10, 0⟩, some 5, 2, ⟨20, 0⟩⟩

def c1CampEnv : CampaignEnv :=
  { users := [⟨"u1", "carol"⟩],
    profileFor := fun u => if u = "carol" then some c1Sender else none,
    grantOutcome := Except.ok "0xgrant",
    nowStr := "1700000000000" }

theorem dedup_idempotent_witness :
    processP2PCommand c1Env [c1Record] c1Tweet c1Author = ⟨false, [c1Record], []⟩ ∧
    processCampaignReply c1CampEnv c1Campaign [c1Record] c1Tweet =
      ⟨[c1Record], c1Campaign, [], 0, false⟩ ∧
    countFor c1Tweet.id
      (processCampaignReply c1CampEnv c1Campaign
        (processCampaignReply c1CampEnv c1Campaign [] c1Tweet).ledger c1Tweet).ledger
      ≤ 1 :=
  have h := dedup_idempotent c1Env c1Env c1CampEnv c1CampEnv c1Campaign c1Campaign
    [c1Record] c1Tweet c1Author c1Author
  have h0 := dedup_idempotent c1Env c1Env c1CampEnv c1CampEnv c1Campaign c1Campaign
    [] c1Tweet c1Author c1Author
  ⟨h.1 (by decide), h.2.2.1 (by decide), h0.2.2.2 (by decide)⟩

/-! C2: record multiplicity per source event. -/

def c2Sender : Profile := ⟨"sender-1", some "0xS", none, some "sender.tag"⟩

def c2Alice : Profile := ⟨"alice-1", some "0xA", some "0xAT", some "alice.tag"⟩

def c2Bob : Profile := ⟨"bob-1", none, some "0xBT", some "bob.tag"⟩

def c2Env : P2PEnv :=
  { monibotProfileId := some "mb-1",
    senderProfile := some c2Sender,
    recipientProfile := fun tag =>
      if tag = "alice" then some c2Alice else if tag = "bob" then some c2Bob else none,
    balanceRead := fun _ => Except.ok 100000000,
    transferOutcome := fun _ => Except.ok "0xhash",
    nowStr := "1700000000000" }

def c2Tweet : Tweet := ⟨"55", "u1", "@monibot send $5 each to @alice @bob on tempo", false⟩

def c2Author : Author := ⟨"u1", "carol"⟩

/-- C2 counterexample: processing one fresh two-recipient command from the
empty ledger (a reachable state) inserts two TransactionRecords with the
same source event id 55, one per recipient, so the per-event record count
is not bounded by one. -/
theorem two_records_per_event :
    ((processP2PCommand c2Env [] c2Tweet c2Author).ledger.filter
        (fun r => r.tweet_id == "55")).length = 2 ∧
    (processP2PCommand c2Env [] c2Tweet c2Author).ledger.map (fun r => r.status) =
      ["completed", "completed"] := by decide

/-- C2 amended: processing only appends records, never updating or deleting
existing ones; a pass over an already-recorded event appends nothing; every
appended record carries the event id; and the number of records appended by
the single fresh pass is at most the number of recipients of the parsed
intent (one when the pass ends in a skip or balance failure), so per-event
multiplicity is bounded by the recipient count of the first pass, not by
one. -/
theorem record_multiplicity_amended (env : P2PEnv) (L : List TxRecord) (t : Tweet)
    (a : Author) :
    ∃ s, (processP2PCommand env L t a).ledger = L ++ s ∧
      (recordedIn L t.id = true → s = []) ∧
      (∀ r ∈ s, r.tweet_id = t.id) ∧
      s.length ≤ max 1 (recipientBound t.text) := by
  rcases h : recordedIn L t.id with _ | _
  · obtain ⟨s, hne, hap, hall, hlen⟩ := process_fresh_shape env L t a h
    exact ⟨s, hap, fun hrec => absurd hrec Bool.false_ne_true, hall, hlen⟩
  · refine ⟨[], ?_, fun _ => rfl, by intro r hr; exact absurd hr (List.not_mem_nil r), by simp⟩
    rw [process_recorded_noop env L t a h]
    simp

theorem record_multiplicity_amended_witness :
    ∃ s, (processP2PCommand c2Env [] c2Tweet c2Author).ledger = [] ++ s ∧
      (recordedIn [] c2Tweet.id = true → s = []) ∧
      (∀ r ∈ s, r.tweet_id = c2Tweet.id) ∧
      s.length ≤ max 1 (recipientBound c2Tweet.text) :=
  record_multiplicity_amended c2Env [] c2Tweet c2Author

/-! C6: balance gating. -/

/-- C6: under a fresh event whose text parses, with the sender resolved, if
the balance the code compares (parseFloat of the balance string) is below
amount times the recipient count — the total the source always uses, the
intent being per-recipient in all cases — then the run makes no transfer
invocation and appends exactly one failed record whose structured error
reason carries both the balance string and the required total. -/
theorem balance_gate (env : P2PEnv) (L : List TxRecord) (t : Tweet) (a : Author)
    (p : Intent) (sp : Profile)
    (hrec : recordedIn L t.id = false)
    (hq : (t.isQuote && !hasDirectCommand t.text) = false)
    (hp : parseP2PCommand t.text = some p)
    (hs : env.senderProfile = some sp)
    (hb : balanceDec (env.balanceRead (resolveAddr sp)) <
      p.amount.mulNat p.recipients.length) :
    processP2PCommand env L t a =
      ⟨false, L ++ [insufficientRec sp t.id (p.amount.mulNat p.recipients.length)
        (getAlphaUsdBalance (env.balanceRead (resolveAddr sp)))
        (String.intercalate "," p.recipients)], []⟩ ∧
    (insufficientRec sp t.id (p.amount.mulNat p.recipients.length)
      (getAlphaUsdBalance (env.balanceRead (resolveAddr sp)))
      (String.intercalate "," p.recipients)).status = "failed" ∧
    (insufficientRec sp t.id (p.amount.mulNat p.recipients.length)
      (getAlphaUsdBalance (env.balanceRead (resolveAddr sp)))
      (String.intercalate "," p.recipients)).error_reason =
      some (ErrReason.insufficientBalance
        (getAlphaUsdBalance (env.balanceRead (resolveAddr sp)))
        (p.amount.mulNat p.recipients.length)) := by
  refine ⟨?_, rfl, rfl⟩
  unfold processP2PCommand
  simp [hrec, hq, hp, hs, hb]

def c6Sender : Profile := ⟨"sender-6", some "0xS6", none, some "sender.six"⟩

def c6Env : P2PEnv :=
  { monibotProfileId := some "mb-1", senderProfile := some c6Sender,
    recipientProfile := fun _ => none,
    balanceRead := fun _ => Except.ok 8000000,
    transferOutcome := fun _ => Except.ok "0xhash",
    nowStr := "1700000000003" }

def c6Tweet : Tweet := ⟨"88", "u6", "@monibot send $5 each to @alice @bob on tempo", false⟩

def c6Author : Author := ⟨"u6", "frank"⟩

theorem balance_gate_witness :
    processP2PCommand c6Env [] c6Tweet c6Author =
      ⟨false, [] ++ [insufficientRec c6Sender c6Tweet.id
        ((⟨5, 0⟩ : Dec).mulNat 2)
        (getAlphaUsdBalance (c6Env.balanceRead (resolveAddr c6Sender)))
        (String.intercalate "," ["alice", "bob"])], []⟩ :=
  (balance_gate c6Env [] c6Tweet c6Author ⟨⟨5, 0⟩, ["alice", "bob"], true⟩ c6Sender
    (by decide) (by decide) (by decide) rfl (by decide)).1

/-! C7: quote-repost gating. -/

/-- C7: a quote repost without the direct imperative command pattern yields
exactly one skipped record with the quote-not-command reason and no
transfer invocation; a quote repost whose text does contain the pattern,
such as one containing send dollar five to a handle, is processed exactly
as the same event would be without the quote flag. -/
theorem quote_gate (env : P2PEnv) (L : List TxRecord) (t : Tweet) (a : Author)
    (hrec : recordedIn L t.id = false) (hq : t.isQuote = true) :
    (hasDirectCommand t.text = false →
      processP2PCommand env L t a =
        ⟨false, L ++ [skipRec env.monibotProfileId t.id "SKIP_QUOTE_NOT_COMMAND"
          a.username none], []⟩ ∧
      (skipRec env.monibotProfileId t.id "SKIP_QUOTE_NOT_COMMAND"
        a.username none).status = "skipped") ∧
    (hasDirectCommand t.text = true →
      processP2PCommand env L t a =
        processP2PCommand env L ⟨t.id, t.author_id, t.text, false⟩ a) ∧
    hasDirectCommand "Check this out, send $5 to @a" = true := by
  refine ⟨?_, ?_, by decide⟩
  · intro hcmd
    refine ⟨?_, rfl⟩
    unfold processP2PCommand
    simp [hrec, hq, hcmd]
  · intro hcmd
    unfold processP2PCommand
    simp [hrec, hq, hcmd]

def c7Env : P2PEnv :=
  { monibotProfileId := some "mb-1", senderProfile := none,
    recipientProfile := fun _ => none,
    balanceRead := fun _ => Except.error "unused",
    transferOutcome := fun _ => Except.error "unused",
    nowStr := "1700000000004" }

def c7Tweet : Tweet := ⟨"66", "u7", "so cool, love tempo and alphausd @monibot", true⟩

def c7Author : Author := ⟨"u7", "erin"⟩

theorem quote_gate_witness :
    processP2PCommand c7Env [] c7Tweet c7Author =
      ⟨false, [] ++ [skipRec c7Env.monibotProfileId c7Tweet.id "SKIP_QUOTE_NOT_COMMAND"
        c7Author.username none], []⟩ :=
  ((quote_gate c7Env [] c7Tweet c7Author (by decide) rfl).1 (by decide)).1

/-! C8: address resolution fallback. -/

def c8Sender : Profile := ⟨"sender-8", some "0xS8", none, some "sender.eight"⟩

def c8Recipient : Profile := ⟨"bob-8", none, none, some "bob.eight"⟩

def c8Env : P2PEnv :=
  { monibotProfileId := some "mb-1", senderProfile := some c8Sender,
    recipientProfile := fun tag => if tag = "bob" then some c8Recipient else none,
    balanceRead := fun _ => Except.ok 100000000,
    transferOutcome := fun _ => Except.error "invalid recipient address",
    nowStr := "1700000000005" }

def c8Tweet : Tweet := ⟨"77", "u8", "@monibot send $5 to @bob on tempo", false⟩

def c8Author : Author := ⟨"u8", "carol"⟩

/-- C8 counterexample: a recipient profile that resolves but has neither a
tempo address nor a wallet address is not treated as not-found: the run
still invokes the transfer executor once, passing the absent address, so a
transfer is attempted for a profile with no usable address. -/
theorem transfer_attempted_without_address :
    resolveAddr c8Recipient = none ∧
    c8Recipient.tempo_address = none ∧ c8Recipient.wallet_address = none ∧
    (processP2PCommand c8Env [] c8Tweet c8Author).calls = [(none, ⟨5, 0⟩)] := by decide

/-- C8 amended: in both the direct-command path and the campaign grant
path, resolution yields the tempo address when present, else the generic
wallet address; a missing profile row is reported not-found and no transfer
or grant is attempted to it (the direct path writes the not-found record,
the campaign path the skip record); but a profile present with neither
address is not treated as not-found: its absent address is handed to the
transfer or grant executor, which is invoked for that recipient anyway. -/
theorem resolve_fallback_amended (env : P2PEnv) (L : List TxRecord) (t : Tweet)
    (au : Author) (p : Intent) (tag : String)
    (hrec : recordedIn L t.id = false)
    (hq : (t.isQuote && !hasDirectCommand t.text) = false)
    (hp : parseP2PCommand t.text = some p)
    (hone : p.recipients = [tag]) :
    (∀ (q : Profile) (addr : String),
      q.tempo_address = some addr → resolveAddr q = some addr) ∧
    (∀ q : Profile, q.tempo_address = none → resolveAddr q = q.wallet_address) ∧
    (env.senderProfile = none →
      processP2PCommand env L t au =
        ⟨false, L ++ [skipRec env.monibotProfileId t.id "ERROR_SENDER_NOT_FOUND"
          au.username p.recipients.head?], []⟩) ∧
    (∀ sp : Profile, env.senderProfile = some sp →
      ¬ balanceDec (env.balanceRead (resolveAddr sp)) <
        p.amount.mulNat p.recipients.length →
      (env.recipientProfile tag = none →
        (processP2PCommand env L t au).calls = [] ∧
        (processP2PCommand env L t au).ledger =
          L ++ [recipientNotFoundRec sp t.id p.amount tag]) ∧
      (∀ rp : Profile, env.recipientProfile tag = some rp →
        rp.tempo_address = none → rp.wallet_address = none →
        resolveAddr rp = none ∧
        (processP2PCommand env L t au).calls = [(none, p.amount)])) ∧
    (∀ (cenv : CampaignEnv) (c : Campaign) (author : Author),
      capacityReached c = false →
      cenv.users.find? (fun u => u.id == t.author_id) = some author →
      (cenv.profileFor author.username = none →
        processCampaignReply cenv c L t =
          ⟨L ++ [grantSkipRec c t.id author.username], c, [], 0, false⟩) ∧
      (∀ profile : Profile, cenv.profileFor author.username = some profile →
        (processCampaignReply cenv c L t).grants =
          [(resolveAddr profile, c.grant_amount)])) := by
  refine ⟨?_, ?_, ?_, ?_, ?_⟩
  · intro q addr hq2
    unfold resolveAddr
    rw [hq2]
  · intro q hq2
    unfold resolveAddr
    rw [hq2]
  · intro hsn
    unfold processP2PCommand
    simp [hrec, hq, hp, hsn]
  · intro sp hs hb
    constructor
    · intro hrpn
      unfold processP2PCommand
      simp only [hrec, hq, hp, hs]
      rw [if_neg hb]
      rw [hone]
      simp [processRecipients, hrpn]
    · intro rp hrp hta hwa
      have hnone : resolveAddr rp = none := by
        unfold resolveAddr
        rw [hta]
        exact hwa
      refine ⟨hnone, ?_⟩
      unfold processP2PCommand
      simp only [hrec, hq, hp, hs]
      rw [if_neg hb]
      rw [hone]
      rcases hto : env.transferOutcome 0 with msg | hx <;>
        simp [processRecipients, hrp, hto, hnone]
  · intro cenv c author hcap hfind
    constructor
    · intro hprofn
      unfold processCampaignReply
      simp [hrec, hcap, hfind, hprofn]
    · intro profile hprof
      unfold processCampaignReply
      rcases hg : cenv.grantOutcome with msg | hx <;>
        simp [hrec, hcap, hfind, hprof, hg]

def c8Campaign : Campaign := ⟨"camp-8", ⟨10, 0⟩, none, 0, ⟨0, 0⟩⟩

def c8CampEnv : CampaignEnv :=
  { users := [c8Author],
    profileFor := fun u => if u = "carol" then some c8Recipient else none,
    grantOutcome := Except.ok "0xg8",
    nowStr := "1700000000005" }

theorem resolve_fallback_amended_witness :
    resolveAddr c8Recipient = none ∧
    (processP2PCommand c8Env [] c8Tweet c8Author).calls = [(none, (⟨5, 0⟩ : Dec))] ∧
    (processCampaignReply c8CampEnv c8Campaign [] c8Tweet).grants =
      [(resolveAddr c8Recipient, c8Campaign.grant_amount)] :=
  have h := resolve_fallback_amended c8Env [] c8Tweet c8Author
    ⟨⟨5, 0⟩, ["bob"], false⟩ "bob" (by decide) (by decide) (by decide) rfl
  have hsp := h.2.2.2.1 c8Sender rfl (by decide)
  have hrp := hsp.2 c8Recipient rfl rfl rfl
  have hc := h.2.2.2.2 c8CampEnv c8Campaign c8Author (by decide) (by decide)
  ⟨hrp.1, hrp.2, hc.2 c8Recipient rfl⟩

/-! C9: poll cursor advancement. -/

def c9ProcEnv : P2PEnv :=
  { monibotProfileId := some "mb-1", senderProfile := none,
    recipientProfile := fun _ => none,
    balanceRead := fun _ => Except.error "db down",
    transferOutcome := fun _ => Except.error "db down",
    nowStr := "1700000000006" }

def c9Tweet : Tweet := ⟨"100", "u9", "@monibot send $5 to @alice on tempo", false⟩

def c9User : Author := ⟨"u9", "dave"⟩

def c9PollEnv : PollEnv :=
  ⟨Except.ok (some ⟨[c9Tweet], [c9User], some "100"⟩), c9ProcEnv, fun _ => true⟩

/-- C9 counterexample: a cycle fetches tweet 100, the datastore fails while
processing it (the per-tweet catch swallows the error, writing no record),
yet the since-id cursor has already advanced to 100, so the event is never
fetched again although it has no TransactionRecord. -/
theorem cursor_advances_past_unrecorded :
    (pollP2PCommands c9PollEnv ⟨none, []⟩).2.cursor = some "100" ∧
    (pollP2PCommands c9PollEnv ⟨none, []⟩).2.ledger = [] ∧
    c9PollEnv.infraFail "100" = true := by decide

/-- C9 amended: only a failure of the search call itself (or an empty
response) leaves the cursor and ledger unchanged for retry next cycle; on
any successful fetch with data the cursor is set to the newest fetched id
before per-event processing, and per-event infrastructure failures do not
roll it back, so an event can be skipped forever without a record. -/
theorem cursor_amended (env : PollEnv) (st : PollState) (e : String) (sd : SearchData) :
    (env.search = Except.error e → pollP2PCommands env st = (0, st)) ∧
    (env.search = Except.ok none → pollP2PCommands env st = (0, st)) ∧
    (env.search = Except.ok (some sd) →
      (pollP2PCommands env st).2.cursor =
        match sd.newest_id with
        | some n => some n
        | none => st.cursor) := by
  refine ⟨?_, ?_, ?_⟩ <;> intro h <;> unfold pollP2PCommands <;> rw [h]

theorem cursor_amended_witness :
    (pollP2PCommands c9PollEnv ⟨some "50", []⟩).2.cursor = some "100" :=
  (cursor_amended c9PollEnv ⟨some "50", []⟩ "unused"
    ⟨[c9Tweet], [c9User], some "100"⟩).2.2 rfl

/-! C10: totality of the balance read. -/

theorem Dec.zero_lt_mulNat {a : Dec} {k : ℕ} (ha : 0 < a) (hk : 0 < k) :
    (0 : Dec) < a.mulNat k := by
  rw [Dec.lt_def] at ha ⊢
  simp only [Dec.mulNat, Dec.zero_m, Dec.zero_e, pow_zero, Nat.mul_one, Nat.zero_mul] at ha ⊢
  exact Nat.mul_pos ha hk

/-- C10: getAlphaUsdBalance catches every failure of the underlying read
and returns the string zero, indistinguishable from a genuinely zero
balance; consequently an event whose sender balance read fails is recorded
as a failed insufficient-balance outcome (with balance string zero), with
no transfer attempted, rather than being left unrecorded for retry. -/
theorem balance_read_total (env : P2PEnv) (L : List TxRecord) (t : Tweet)
    (a : Author) (p : Intent) (sp : Profile) (msg : String)
    (hrec : recordedIn L t.id = false)
    (hq : (t.isQuote && !hasDirectCommand t.text) = false)
    (hp : parseP2PCommand t.text = some p)
    (hs : env.senderProfile = some sp)
    (hb : env.balanceRead (resolveAddr sp) = Except.error msg) :
    (∀ e : String, getAlphaUsdBalance (Except.error e) = "0") ∧
    getAlphaUsdBalance (Except.error msg) = getAlphaUsdBalance (Except.ok 0) ∧
    processP2PCommand env L t a =
      ⟨false, L ++ [insufficientRec sp t.id (p.amount.mulNat p.recipients.length) "0"
        (String.intercalate "," p.recipients)], []⟩ ∧
    (insufficientRec sp t.id (p.amount.mulNat p.recipients.length) "0"
      (String.intercalate "," p.recipients)).status = "failed" := by
  have hfacts := parse_some_facts t.text p hp
  have hklen : 0 < p.recipients.length :=
    List.length_pos.mpr hfacts.2.2.1
  have hlt : balanceDec (Except.error msg : Except String ℕ) <
      p.amount.mulNat p.recipients.length :=
    Dec.zero_lt_mulNat hfacts.1 hklen
  refine ⟨fun e => rfl, rfl, ?_, rfl⟩
  unfold processP2PCommand
  simp [hrec, hq, hp, hs, hlt, hb, getAlphaUsdBalance]

def c10Sender : Profile := ⟨"sender-10", none, some "0xST", some "sender.ten"⟩

def c10Env : P2PEnv :=
  { monibotProfileId := some "mb-1", senderProfile := some c10Sender,
    recipientProfile := fun _ => none,
    balanceRead := fun _ => Except.error "rpc unreachable",
    transferOutcome := fun _ => Except.ok "0xunused",
    nowStr := "1700000000007" }

def c10Tweet : Tweet := ⟨"99", "u10", "@monibot send $5 to @alice on tempo", false⟩

def c10Author : Author := ⟨"u10", "grace"⟩

theorem balance_read_total_witness :
    getAlphaUsdBalance (Except.error "rpc unreachable") =
      getAlphaUsdBalance (Except.ok 0) ∧
    processP2PCommand c10Env [] c10Tweet c10Author =
      ⟨false, [] ++ [insufficientRec c10Sender c10Tweet.id
        ((⟨5, 0⟩ : Dec).mulNat 1) "0"
        (String.intercalate "," ["alice"])], []⟩ :=
  have h := balance_read_total c10Env [] c10Tweet c10Author
    ⟨⟨5, 0⟩, ["alice"], false⟩ c10Sender "rpc unreachable"
    (by decide) (by decide) (by decide) rfl rfl
  ⟨h.2.1, h.2.2.1⟩

end TempoWorker
